import Mathlib

/-!
Shallow embedding of the Stylus-Toolkit gas estimation-and-comparison
pipeline (src/src/profiler/gas-profiler.ts, src/src/profiler/comparator.ts,
src/src/storage/results-store.ts, src/src/types/index.ts).

Modelling conventions:
* JavaScript `Map<string, T>` is an insertion-ordered association list
  `List (String × T)`; `mapGet` models `Map.get`, `mapSet` models `Map.set`
  (update in place, append when the key is new), `mkMap` models the
  `new Map(pairs)` constructor.
* JavaScript numbers are embedded as `ℚ`; `Math.floor` is `Int.floor`.
* Reads of the wall clock (`new Date().toISOString()`) are passed in as an
  explicit `now : String` argument.
* Results of network transactions (gas receipts, deployment success) are
  passed in as explicit arguments: each attempted test case carries an
  `Except String ℚ` outcome (`ok gas` for a successful receipt, `error msg`
  for a thrown error).
* Object properties that exist on some map values but not on others
  (`calls` on estimation entries, `executions` on measurement entries) are
  `Option` fields; `jsOrQ` models the JavaScript `||` fallback, which also
  falls through on the falsy number `0`.
-/

namespace StylusToolkit

/-- The two contract language variants (`'rust' | 'solidity'`). -/
inductive Language where
  | rust
  | solidity
deriving DecidableEq, Repr

/-- One recorded measurement test case (types/index.ts `TestCase`); the
`inputs : any[]` field carries opaque user data and is not modelled. -/
structure TestCase where
  name : String
  gasUsed : ℚ
  success : Bool
  error : Option String := none
deriving DecidableEq, Repr

/-- A value of the `functionGas` map.  Measurement mode stores a full
`FunctionGasData` record; estimation mode stores `{avgGas, calls}` objects.
Fields absent on one of the two shapes are `Option`s / defaults. -/
structure FunctionGasData where
  functionName : String := ""
  gasUsed : ℚ := 0
  executions : Option ℚ := none
  avgGas : ℚ
  minGas : Option ℚ := none
  maxGas : Option ℚ := none
  calls : Option ℚ := none
  testCases : List TestCase := []
deriving DecidableEq, Repr

/-- Insertion-ordered association list standing for `Map<string, FunctionGasData>`. -/
abbrev GasMap := List (String × FunctionGasData)

/-- `Map.get`: first binding of the key, if any. -/
def mapGet {α : Type} : List (String × α) → String → Option α
  | [], _ => none
  | p :: rest, k => if p.1 = k then some p.2 else mapGet rest k

/-- `Map.set`: overwrite in place when the key is present, append otherwise. -/
def mapSet {α : Type} : List (String × α) → String → α → List (String × α)
  | [], k, v => [(k, v)]
  | p :: rest, k, v => if p.1 = k then (k, v) :: rest else p :: mapSet rest k v

/-- `new Map(pairs)`: insert the pairs left to right into an empty map. -/
def mkMap {α : Type} (l : List (String × α)) : List (String × α) :=
  l.foldl (fun m p => mapSet m p.1 p.2) []

/-- The keys of an association list, in order. -/
def mapKeys {α : Type} (m : List (String × α)) : List String :=
  m.map Prod.fst

/-- Outcome of one external compiler invocation (types/index.ts
`CompilationResult`); the `abi : any[]` field is modelled by its presence. -/
structure CompilationResult where
  success : Bool
  language : Language
  contractName : String
  bytecode : String
  abi : Option Unit := none
  bytecodeSizeKb : ℚ := 0
  compilationTime : ℚ := 0
deriving DecidableEq, Repr

/-- Normalized cost profile of one contract variant (types/index.ts `GasProfile`). -/
structure GasProfile where
  contractName : String
  language : Language
  deploymentGas : ℚ
  functionGas : GasMap
  timestamp : String
  network : String
  blockNumber : Option ℤ := none
deriving DecidableEq, Repr

/-- An `{absolute, percentage}` pair (deployment savings / total average savings). -/
structure AvgSavings where
  absolute : ℚ
  percentage : ℚ
deriving DecidableEq, Repr

/-- Per-category savings entry (types/index.ts `FunctionSavings`). -/
structure FunctionSavings where
  functionName : String
  absolute : ℚ
  percentage : ℚ
  rustGas : ℚ
  solidityGas : ℚ
deriving DecidableEq, Repr

/-- Total-cost-of-ownership analysis (types/index.ts `TCOAnalysis`). -/
structure TCOAnalysis where
  rustTCO : ℚ
  solidityTCO : ℚ
  tcoAbsolute : ℚ
  tcoPercentage : ℚ
  callFrequency : ℚ
  functionCount : ℕ
deriving DecidableEq, Repr

/-- The `savings` block of a comparison (types/index.ts `GasSavings`). -/
structure GasSavings where
  deploymentSavings : AvgSavings
  functionSavings : List (String × FunctionSavings)
  totalAvgSavings : AvgSavings
deriving DecidableEq, Repr

/-- The output artifact of one profiling run (types/index.ts `ComparisonResult`). -/
structure ComparisonResult where
  contractName : String
  rustProfile : GasProfile
  solidityProfile : GasProfile
  savings : GasSavings
  tco : TCOAnalysis
  timestamp : String
deriving DecidableEq, Repr

/-- JavaScript `x || y` on an optional number: `undefined` and `0` are falsy. -/
def jsOrQ (x : Option ℚ) (y : ℚ) : ℚ :=
  match x with
  | none => y
  | some v => if v = 0 then y else v

namespace GasComparator

/-- comparator.ts `calculateDeploymentSavings` (lines 44-52). -/
def calculateDeploymentSavings (rustGas solidityGas : ℚ) : AvgSavings :=
  let absolute := solidityGas - rustGas
  { absolute := absolute
    percentage := if solidityGas > 0 then absolute / solidityGas * 100 else 0 }

/-- The `FunctionSavings` record built inside `calculateFunctionSavings`. -/
def mkFunctionSavings (functionName : String) (rustData solidityData : FunctionGasData) :
    FunctionSavings :=
  let absolute := solidityData.avgGas - rustData.avgGas
  { functionName := functionName
    absolute := absolute
    percentage := if solidityData.avgGas > 0 then absolute / solidityData.avgGas * 100 else 0
    rustGas := rustData.avgGas
    solidityGas := solidityData.avgGas }

/-- One iteration of the `calculateFunctionSavings` loop: for a key the
solidity map also holds, set a savings entry, otherwise keep the map. -/
def fsStep (solidityFunctions : GasMap) (savingsMap : List (String × FunctionSavings))
    (p : String × FunctionGasData) : List (String × FunctionSavings) :=
  match mapGet solidityFunctions p.1 with
  | some solidityData => mapSet savingsMap p.1 (mkFunctionSavings p.1 p.2 solidityData)
  | none => savingsMap

/-- comparator.ts `calculateFunctionSavings` (lines 54-79): iterate the rust
map in insertion order; for keys the solidity map also holds, set a savings
entry. -/
def calculateFunctionSavings (rustFunctions solidityFunctions : GasMap) :
    List (String × FunctionSavings) :=
  rustFunctions.foldl (fsStep solidityFunctions) []

/-- comparator.ts `calculateTotalAvgSavings` (lines 81-98). -/
def calculateTotalAvgSavings (functionSavings : List (String × FunctionSavings)) : AvgSavings :=
  if functionSavings.length = 0 then
    { absolute := 0, percentage := 0 }
  else
    let totalAbsolute := functionSavings.foldl (fun t p => t + p.2.absolute) 0
    let totalPercentage := functionSavings.foldl (fun t p => t + p.2.percentage) 0
    { absolute := totalAbsolute / (functionSavings.length : ℚ)
      percentage := totalPercentage / (functionSavings.length : ℚ) }

/-- comparator.ts `calculateSavings` (lines 24-42). -/
def calculateSavings (rustProfile solidityProfile : GasProfile) : GasSavings :=
  let deploymentSavings :=
    calculateDeploymentSavings rustProfile.deploymentGas solidityProfile.deploymentGas
  let functionSavings :=
    calculateFunctionSavings rustProfile.functionGas solidityProfile.functionGas
  let totalAvgSavings := calculateTotalAvgSavings functionSavings
  { deploymentSavings := deploymentSavings
    functionSavings := functionSavings
    totalAvgSavings := totalAvgSavings }

/-- The per-entry call-count fallback used by `calculateTCO`:
`data.calls || data.executions || callFrequency` with `callFrequency = 100`. -/
def callsUsed (d : FunctionGasData) : ℚ :=
  jsOrQ d.calls (jsOrQ d.executions 100)

/-- One iteration of the `calculateTCO` loop, accumulating
(rustTotalExecution, solidityTotalExecution, functionCount). -/
def tcoStep (solidityFunctions : GasMap) (acc : ℚ × ℚ × ℕ) (p : String × FunctionGasData) :
    ℚ × ℚ × ℕ :=
  match mapGet solidityFunctions p.1 with
  | some solidityData =>
      (acc.1 + p.2.avgGas * callsUsed p.2,
       acc.2.1 + solidityData.avgGas * callsUsed solidityData,
       acc.2.2 + 1)
  | none => acc

/-- comparator.ts `calculateTCO` (lines 100-138). -/
def calculateTCO (rustProfile solidityProfile : GasProfile) : TCOAnalysis :=
  let callFrequency : ℚ := 100
  let totals := rustProfile.functionGas.foldl (tcoStep solidityProfile.functionGas) (0, 0, 0)
  let rustTCO := rustProfile.deploymentGas + totals.1
  let solidityTCO := solidityProfile.deploymentGas + totals.2.1
  let tcoAbsolute := solidityTCO - rustTCO
  { rustTCO := rustTCO
    solidityTCO := solidityTCO
    tcoAbsolute := tcoAbsolute
    tcoPercentage := if solidityTCO > 0 then tcoAbsolute / solidityTCO * 100 else 0
    callFrequency := callFrequency
    functionCount := totals.2.2 }

/-- comparator.ts `compare` (lines 10-22); `now` is the wall-clock reading
used for the `timestamp` field. -/
def compare (now : String) (rustProfile solidityProfile : GasProfile) : ComparisonResult :=
  { contractName := rustProfile.contractName
    rustProfile := rustProfile
    solidityProfile := solidityProfile
    savings := calculateSavings rustProfile solidityProfile
    tco := calculateTCO rustProfile solidityProfile
    timestamp := now }

end GasComparator

namespace GasProfiler

/-- An estimation-mode `functionGasMap` entry: the `{avgGas, calls: 100}`
objects set by `estimateGasProfile`. -/
def estEntry (avgGas : ℚ) : FunctionGasData :=
  { avgGas := avgGas, calls := some 100 }

/-- The fixed per-category lookup table of `estimateGasProfile`
(gas-profiler.ts lines 82-95), built by four `Map.set` calls on a fresh map. -/
def estimationFunctionGas (language : Language) : GasMap :=
  match language with
  | .rust =>
      [("read", estEntry 5000), ("write", estEntry 12000),
       ("compute", estEntry 8000), ("oracle", estEntry 75000)]
  | .solidity =>
      [("read", estEntry 6000), ("write", estEntry 20000),
       ("compute", estEntry 15000), ("oracle", estEntry 103000)]

/-- gas-profiler.ts `estimateGasProfile` (lines 67-111): deployment gas from
bytecode size (`bytecode.length / 2` hex chars per byte, `Math.floor` of the
formula), function gas from the fixed table. -/
def estimateGasProfile (now : String) (compilation : CompilationResult) : GasProfile :=
  let bytecodeSize : ℚ := (compilation.bytecode.length : ℚ) / 2
  let estimatedDeploymentGas : ℤ :=
    match compilation.language with
    | .rust => ⌊(21000 : ℚ) + bytecodeSize * 16⌋
    | .solidity => ⌊(21000 : ℚ) + bytecodeSize * 200⌋
  { contractName := compilation.contractName
    language := compilation.language
    deploymentGas := (estimatedDeploymentGas : ℚ)
    functionGas := estimationFunctionGas compilation.language
    timestamp := now
    network := "estimation"
    blockNumber := some 0 }

/-- The `TestCase` record pushed for test index `i` in the
`measureFunctionGas` loop: a successful receipt records its gas, a thrown
error records `gasUsed = 0`, `success = false` and the message. -/
def mkTestCase (i : ℕ) (outcome : Except String ℚ) : TestCase :=
  match outcome with
  | .ok gasUsed =>
      { name := "Test " ++ toString (i + 1), gasUsed := gasUsed, success := true, error := none }
  | .error msg =>
      { name := "Test " ++ toString (i + 1), gasUsed := 0, success := false, error := some msg }

/-- The inner loop of `measureFunctionGas` for one function name
(gas-profiler.ts lines 187-230): collect per-case results, keep the gas of
successful cases in `gasUsages`, and produce an aggregate entry iff
`gasUsages` is non-empty (mean / `Math.min` / `Math.max` over `gasUsages`,
`executions = gasUsages.length`). -/
def aggregateFunctionGas (functionName : String) (outcomes : List (Except String ℚ)) :
    Option FunctionGasData :=
  let testResults := outcomes.enum.map (fun p => mkTestCase p.1 p.2)
  let gasUsages := outcomes.filterMap (fun o => o.toOption)
  match gasUsages with
  | [] => none
  | g :: gs =>
      let avgGas := (g :: gs).sum / ((g :: gs).length : ℚ)
      some { functionName := functionName
             gasUsed := avgGas
             executions := some ((g :: gs).length : ℚ)
             avgGas := avgGas
             minGas := some (gs.foldl min g)
             maxGas := some (gs.foldl max g)
             testCases := testResults }

/-- gas-profiler.ts `measureFunctionGas` (lines 161-237).  `abi` and
`testCases` presence gate the whole function; only the `'solidity'` branch
deploys and measures (`deployOk` is the outcome of `factory.deploy()`, whose
failure is caught and yields the still-empty map); every other language
returns the empty map immediately.  `testCases` pairs each function name
with the outcomes of its attempted cases. -/
def measureFunctionGas (language : Language) (abi : Option Unit)
    (testCases : Option (List (String × List (Except String ℚ)))) (deployOk : Bool) : GasMap :=
  match abi, testCases with
  | some _, some tcs =>
      match language with
      | .solidity =>
          if deployOk then
            tcs.foldl
              (fun m p =>
                match aggregateFunctionGas p.1 p.2 with
                | some entry => mapSet m p.1 entry
                | none => m)
              []
          else []
      | .rust => []
  | _, _ => []

/-- gas-profiler.ts `profileContract` measurement-mode branch (lines 42-60):
the network probe succeeded with identity `network` and height `blockNumber`,
deployment measurement yielded `deploymentGas`, and `functionGas` comes from
`measureFunctionGas`. -/
def profileContract (now network : String) (blockNumber : ℤ) (deploymentGas : ℚ)
    (compilation : CompilationResult)
    (testCases : Option (List (String × List (Except String ℚ)))) (deployOk : Bool) :
    GasProfile :=
  { contractName := compilation.contractName
    language := compilation.language
    deploymentGas := deploymentGas
    functionGas := measureFunctionGas compilation.language compilation.abi testCases deployOk
    timestamp := now
    network := network
    blockNumber := some blockNumber }

end GasProfiler

namespace ResultsStore

/-- A `GasProfile` after `serializeComparison`: `functionGas` flattened by
`Array.from(map.entries())` into an ordered pair list. -/
structure SerializedProfile where
  contractName : String
  language : Language
  deploymentGas : ℚ
  functionGas : List (String × FunctionGasData)
  timestamp : String
  network : String
  blockNumber : Option ℤ
deriving DecidableEq, Repr

/-- The `savings` block after `serializeComparison`. -/
structure SerializedSavings where
  deploymentSavings : AvgSavings
  functionSavings : List (String × FunctionSavings)
  totalAvgSavings : AvgSavings
deriving DecidableEq, Repr

/-- A `ComparisonResult` after `serializeComparison`. -/
structure SerializedComparison where
  contractName : String
  rustProfile : SerializedProfile
  solidityProfile : SerializedProfile
  savings : SerializedSavings
  tco : TCOAnalysis
  timestamp : String
deriving DecidableEq, Repr

/-- results-store.ts `serializeComparison` (lines 84-100): copy every field,
flattening the three category maps into ordered key-value pair lists. -/
def serializeComparison (comparison : ComparisonResult) : SerializedComparison :=
  { contractName := comparison.contractName
    rustProfile :=
      { contractName := comparison.rustProfile.contractName
        language := comparison.rustProfile.language
        deploymentGas := comparison.rustProfile.deploymentGas
        functionGas := comparison.rustProfile.functionGas
        timestamp := comparison.rustProfile.timestamp
        network := comparison.rustProfile.network
        blockNumber := comparison.rustProfile.blockNumber }
    solidityProfile :=
      { contractName := comparison.solidityProfile.contractName
        language := comparison.solidityProfile.language
        deploymentGas := comparison.solidityProfile.deploymentGas
        functionGas := comparison.solidityProfile.functionGas
        timestamp := comparison.solidityProfile.timestamp
        network := comparison.solidityProfile.network
        blockNumber := comparison.solidityProfile.blockNumber }
    savings :=
      { deploymentSavings := comparison.savings.deploymentSavings
        functionSavings := comparison.savings.functionSavings
        totalAvgSavings := comparison.savings.totalAvgSavings }
    tco := comparison.tco
    timestamp := comparison.timestamp }

/-- results-store.ts `deserializeComparison` (lines 102-118): copy every
field, rebuilding the three category maps with `new Map(pairs)`. -/
def deserializeComparison (data : SerializedComparison) : ComparisonResult :=
  { contractName := data.contractName
    rustProfile :=
      { contractName := data.rustProfile.contractName
        language := data.rustProfile.language
        deploymentGas := data.rustProfile.deploymentGas
        functionGas := mkMap data.rustProfile.functionGas
        timestamp := data.rustProfile.timestamp
        network := data.rustProfile.network
        blockNumber := data.rustProfile.blockNumber }
    solidityProfile :=
      { contractName := data.solidityProfile.contractName
        language := data.solidityProfile.language
        deploymentGas := data.solidityProfile.deploymentGas
        functionGas := mkMap data.solidityProfile.functionGas
        timestamp := data.solidityProfile.timestamp
        network := data.solidityProfile.network
        blockNumber := data.solidityProfile.blockNumber }
    savings :=
      { deploymentSavings := data.savings.deploymentSavings
        functionSavings := mkMap data.savings.functionSavings
        totalAvgSavings := data.savings.totalAvgSavings }
    tco := data.tco
    timestamp := data.timestamp }

end ResultsStore

/-! ### Association-list lemmas -/

theorem mapGet_append_of_none {α : Type} {m₁ : List (String × α)} {k : String}
    (m₂ : List (String × α)) (h : mapGet m₁ k = none) :
    mapGet (m₁ ++ m₂) k = mapGet m₂ k := by
  induction m₁ with
  | nil => rfl
  | cons p rest ih =>
      rw [mapGet] at h
      rw [List.cons_append, mapGet]
      by_cases hk : p.1 = k
      · simp [hk] at h
      · rw [if_neg hk] at h ⊢
        exact ih h

theorem mapSet_of_get_none {α : Type} {m : List (String × α)} {k : String}
    (v : α) (h : mapGet m k = none) :
    mapSet m k v = m ++ [(k, v)] := by
  induction m with
  | nil => rfl
  | cons p rest ih =>
      rw [mapGet] at h
      rw [mapSet]
      by_cases hk : p.1 = k
      · simp [hk] at h
      · rw [if_neg hk] at h ⊢
        rw [ih h, List.cons_append]

theorem mapGet_singleton_of_ne {α : Type} {j k : String} (v : α) (h : j ≠ k) :
    mapGet [(j, v)] k = none := by
  rw [mapGet, if_neg h]
  rfl

theorem mapKeys_cons {α : Type} (p : String × α) (rest : List (String × α)) :
    mapKeys (p :: rest) = p.1 :: mapKeys rest := rfl

/-- `new Map(pairs)` over pairs with pairwise-distinct keys reproduces the
pair list: generalized fold invariant. -/
theorem mkMap_go {α : Type} :
    ∀ (l acc : List (String × α)), (mapKeys l).Nodup →
      (∀ k ∈ mapKeys l, mapGet acc k = none) →
      List.foldl (fun m p => mapSet m p.1 p.2) acc l = acc ++ l := by
  intro l
  induction l with
  | nil => intro acc _ _; simp
  | cons p rest ih =>
      intro acc hnd hacc
      rw [List.foldl_cons]
      rw [mapSet_of_get_none p.2 (hacc p.1 (by rw [mapKeys_cons]; exact List.mem_cons_self _ _))]
      rw [mapKeys_cons, List.nodup_cons] at hnd
      have hacc' : ∀ k ∈ mapKeys rest, mapGet (acc ++ [(p.1, p.2)]) k = none := by
        intro k hk
        rw [mapGet_append_of_none _
          (hacc k (by rw [mapKeys_cons]; exact List.mem_cons_of_mem _ hk))]
        exact mapGet_singleton_of_ne p.2 (fun he => hnd.1 (he ▸ hk))
      rw [ih (acc ++ [(p.1, p.2)]) hnd.2 hacc']
      simp

theorem mkMap_of_nodup {α : Type} (l : List (String × α)) (h : (mapKeys l).Nodup) :
    mkMap l = l := by
  have hgo := mkMap_go l [] h (fun k _ => rfl)
  simpa [mkMap] using hgo

/-! ### Fold characterizations of the comparator loops -/

theorem fsStep_foldl (sol : GasMap) :
    ∀ (rust : GasMap) (acc : List (String × FunctionSavings)),
      (mapKeys rust).Nodup →
      (∀ k ∈ mapKeys rust, mapGet acc k = none) →
      List.foldl (GasComparator.fsStep sol) acc rust
        = acc ++ rust.filterMap (fun p => (mapGet sol p.1).map
            (fun sd => (p.1, GasComparator.mkFunctionSavings p.1 p.2 sd))) := by
  intro rust
  induction rust with
  | nil => intro acc _ _; simp
  | cons p rest ih =>
      intro acc hnd hacc
      rw [mapKeys_cons, List.nodup_cons] at hnd
      rw [List.foldl_cons, List.filterMap_cons]
      cases hsd : mapGet sol p.1 with
      | none =>
          simp only [GasComparator.fsStep, hsd]
          exact ih acc hnd.2
            (fun k hk => hacc k (by rw [mapKeys_cons]; exact List.mem_cons_of_mem _ hk))
      | some sd =>
          simp only [GasComparator.fsStep, hsd, Option.map_some']
          rw [mapSet_of_get_none _
            (hacc p.1 (by rw [mapKeys_cons]; exact List.mem_cons_self _ _))]
          have hacc' : ∀ k ∈ mapKeys rest,
              mapGet (acc ++ [(p.1, GasComparator.mkFunctionSavings p.1 p.2 sd)]) k = none := by
            intro k hk
            rw [mapGet_append_of_none _
              (hacc k (by rw [mapKeys_cons]; exact List.mem_cons_of_mem _ hk))]
            exact mapGet_singleton_of_ne _ (fun he => hnd.1 (he ▸ hk))
          rw [ih _ hnd.2 hacc']
          simp

theorem calculateFunctionSavings_eq (rust sol : GasMap) (h : (mapKeys rust).Nodup) :
    GasComparator.calculateFunctionSavings rust sol
      = rust.filterMap (fun p => (mapGet sol p.1).map
          (fun sd => (p.1, GasComparator.mkFunctionSavings p.1 p.2 sd))) := by
  have hgo := fsStep_foldl sol rust [] h (fun k _ => rfl)
  simpa [GasComparator.calculateFunctionSavings] using hgo

theorem calculateFunctionSavings_nil_of_disjoint (rust sol : GasMap)
    (h : ∀ p ∈ rust, mapGet sol p.1 = none) :
    GasComparator.calculateFunctionSavings rust sol = [] := by
  rw [GasComparator.calculateFunctionSavings]
  induction rust with
  | nil => rfl
  | cons p rest ih =>
      rw [List.foldl_cons, GasComparator.fsStep, h p (by simp)]
      exact ih (fun q hq => h q (by simp [hq]))

theorem mapKeys_filterMap_intersection (sol : GasMap) :
    ∀ rust : GasMap,
      mapKeys (rust.filterMap (fun p => (mapGet sol p.1).map
          (fun sd => (p.1, GasComparator.mkFunctionSavings p.1 p.2 sd))))
        = (mapKeys rust).filter (fun k => (mapGet sol k).isSome) := by
  intro rust
  induction rust with
  | nil => rfl
  | cons p rest ih =>
      rw [List.filterMap_cons]
      cases hsd : mapGet sol p.1 with
      | none =>
          rw [mapKeys_cons, List.filter_cons_of_neg (by simp [hsd])]
          exact ih
      | some sd =>
          simp only [Option.map_some']
          rw [mapKeys_cons, mapKeys_cons, List.filter_cons_of_pos (by simp [hsd])]
          exact congrArg (List.cons p.1) ih

theorem tcoStep_foldl (sol : GasMap) :
    ∀ (l : GasMap) (acc : ℚ × ℚ × ℕ),
      List.foldl (GasComparator.tcoStep sol) acc l
        = (acc.1 + (l.filterMap (fun p => (mapGet sol p.1).map
              (fun _ => p.2.avgGas * GasComparator.callsUsed p.2))).sum,
           acc.2.1 + (l.filterMap (fun p => (mapGet sol p.1).map
              (fun sd => sd.avgGas * GasComparator.callsUsed sd))).sum,
           acc.2.2 + l.countP (fun p => (mapGet sol p.1).isSome)) := by
  intro l
  induction l with
  | nil => intro acc; simp
  | cons p rest ih =>
      intro acc
      rw [List.foldl_cons]
      cases hsd : mapGet sol p.1 with
      | none =>
          rw [GasComparator.tcoStep, hsd, ih acc]
          simp [List.countP_cons, hsd]
      | some sd =>
          rw [GasComparator.tcoStep, hsd, ih]
          simp only [List.filterMap_cons, hsd, Option.map_some', List.sum_cons,
            List.countP_cons, Option.isSome_some, if_pos]
          refine Prod.ext ?_ (Prod.ext ?_ ?_)
          · simp; ring
          · simp; ring
          · simp; omega

theorem foldl_add_eq {β : Type} (g : β → ℚ) :
    ∀ (l : List β) (a : ℚ), l.foldl (fun t p => t + g p) a = a + (l.map g).sum := by
  intro l
  induction l with
  | nil => intro a; simp
  | cons x rest ih =>
      intro a
      rw [List.foldl_cons, ih, List.map_cons, List.sum_cons]
      ring

theorem calculateTotalAvgSavings_eq (fs : List (String × FunctionSavings)) :
    GasComparator.calculateTotalAvgSavings fs
      = if fs.length = 0 then ⟨0, 0⟩
        else ⟨(fs.map (fun p => p.2.absolute)).sum / (fs.length : ℚ),
              (fs.map (fun p => p.2.percentage)).sum / (fs.length : ℚ)⟩ := by
  rw [GasComparator.calculateTotalAvgSavings]
  by_cases h : fs.length = 0
  · rw [if_pos h, if_pos h]
  · rw [if_neg h, if_neg h, foldl_add_eq, foldl_add_eq]
    simp

/-! ### Bounds on folded minima, maxima and the arithmetic mean -/

theorem foldl_min_le_init : ∀ (gs : List ℚ) (g : ℚ), List.foldl min g gs ≤ g := by
  intro gs
  induction gs with
  | nil => intro g; exact le_refl g
  | cons g' rest ih =>
      intro g
      rw [List.foldl_cons]
      exact le_trans (ih (min g g')) (min_le_left g g')

theorem foldl_min_le_mem :
    ∀ (gs : List ℚ) (g x : ℚ), x ∈ gs → List.foldl min g gs ≤ x := by
  intro gs
  induction gs with
  | nil => intro g x hx; exact absurd hx (List.not_mem_nil x)
  | cons g' rest ih =>
      intro g x hx
      rw [List.foldl_cons]
      rcases List.mem_cons.mp hx with h | h
      · rw [h]
        exact le_trans (foldl_min_le_init rest (min g g')) (min_le_right g g')
      · exact ih (min g g') x h

theorem init_le_foldl_max : ∀ (gs : List ℚ) (g : ℚ), g ≤ List.foldl max g gs := by
  intro gs
  induction gs with
  | nil => intro g; exact le_refl g
  | cons g' rest ih =>
      intro g
      rw [List.foldl_cons]
      exact le_trans (le_max_left g g') (ih (max g g'))

theorem mem_le_foldl_max :
    ∀ (gs : List ℚ) (g x : ℚ), x ∈ gs → x ≤ List.foldl max g gs := by
  intro gs
  induction gs with
  | nil => intro g x hx; exact absurd hx (List.not_mem_nil x)
  | cons g' rest ih =>
      intro g x hx
      rw [List.foldl_cons]
      rcases List.mem_cons.mp hx with h | h
      · rw [h]
        exact le_trans (le_max_right g g') (init_le_foldl_max rest (max g g'))
      · exact ih (max g g') x h

theorem foldl_min_le_avg (g : ℚ) (gs : List ℚ) :
    gs.foldl min g ≤ (g :: gs).sum / ((g :: gs).length : ℚ) := by
  have hlen : (0 : ℚ) < ((g :: gs).length : ℚ) := by
    have : 0 < (g :: gs).length := List.length_pos.mpr (List.cons_ne_nil g gs)
    exact_mod_cast this
  rw [le_div_iff₀ hlen]
  have hbound : ∀ x ∈ g :: gs, gs.foldl min g ≤ x := by
    intro x hx
    rcases List.mem_cons.mp hx with h | h
    · exact h ▸ foldl_min_le_init gs g
    · exact foldl_min_le_mem gs g x h
  have hsum := List.card_nsmul_le_sum (g :: gs) (gs.foldl min g) hbound
  rw [nsmul_eq_mul] at hsum
  calc gs.foldl min g * ((g :: gs).length : ℚ)
      = ((g :: gs).length : ℚ) * gs.foldl min g := by ring
    _ ≤ (g :: gs).sum := hsum

theorem avg_le_foldl_max (g : ℚ) (gs : List ℚ) :
    (g :: gs).sum / ((g :: gs).length : ℚ) ≤ gs.foldl max g := by
  have hlen : (0 : ℚ) < ((g :: gs).length : ℚ) := by
    have : 0 < (g :: gs).length := List.length_pos.mpr (List.cons_ne_nil g gs)
    exact_mod_cast this
  rw [div_le_iff₀ hlen]
  have hbound : ∀ x ∈ g :: gs, x ≤ gs.foldl max g := by
    intro x hx
    rcases List.mem_cons.mp hx with h | h
    · exact h ▸ init_le_foldl_max gs g
    · exact mem_le_foldl_max gs g x h
  have hsum := List.sum_le_card_nsmul (g :: gs) (gs.foldl max g) hbound
  rw [nsmul_eq_mul] at hsum
  calc (g :: gs).sum ≤ ((g :: gs).length : ℚ) * gs.foldl max g := hsum
    _ = gs.foldl max g * ((g :: gs).length : ℚ) := by ring

theorem length_filterMap_eq_countP {β γ : Type} (f : β → Option γ) :
    ∀ l : List β, (l.filterMap f).length = l.countP (fun o => (f o).isSome) := by
  intro l
  induction l with
  | nil => rfl
  | cons x rest ih =>
      rw [List.filterMap_cons, List.countP_cons]
      cases hx : f x with
      | none => simp [hx, ih]
      | some y => simp [hx, ih]

/-! ### Concrete fixtures used by counterexamples and witnesses -/

/-- A successful WASM-variant compilation whose bytecode is 2048 hex
characters, i.e. 1024 bytes. -/
def wRustCompilation : CompilationResult :=
  { success := true, language := Language.rust, contractName := "Counter",
    bytecode := String.mk (List.replicate 2048 'a'), abi := some () }

/-- A successful bytecode-VM-variant compilation whose bytecode is 8192 hex
characters, i.e. 4096 bytes. -/
def wSolidityCompilation : CompilationResult :=
  { success := true, language := Language.solidity, contractName := "Counter",
    bytecode := String.mk (List.replicate 8192 'b'), abi := some () }

/-- A candidate profile with a single `read` category. -/
def wProfileA : GasProfile :=
  { contractName := "Counter", language := Language.rust, deploymentGas := 37384,
    functionGas := [("read", { avgGas := 5000, calls := some 100 })],
    timestamp := "t", network := "estimation", blockNumber := some 0 }

/-- A baseline profile sharing the `read` category with `wProfileA`. -/
def wProfileB : GasProfile :=
  { contractName := "Counter", language := Language.solidity, deploymentGas := 840200,
    functionGas := [("read", { avgGas := 6000, calls := some 100 })],
    timestamp := "t", network := "estimation", blockNumber := some 0 }

/-- A baseline profile whose category set is disjoint from `wProfileA`'s. -/
def wProfileDisjoint : GasProfile :=
  { contractName := "Counter", language := Language.solidity, deploymentGas := 840200,
    functionGas := [("write", { avgGas := 20000, calls := some 100 })],
    timestamp := "t", network := "estimation", blockNumber := some 0 }

/-! ### Claim theorems -/

/-- C1 counterexample: on a WASM-variant compilation with bytecode byte
length `B = 1024`, `estimateGasProfile` yields deployment gas `37384 =
21000 + 16*1024`, not the claimed `337384 = 21000 + 300000 + 16*1024`: the
code adds no `300000` activation overhead. -/
theorem estimation_deployment_overhead_cex :
    (GasProfiler.estimateGasProfile "t" wRustCompilation).deploymentGas = 37384
      ∧ (GasProfiler.estimateGasProfile "t" wRustCompilation).deploymentGas ≠ 337384 := by
  have hl : ((wRustCompilation.bytecode.length : ℚ)) = 2048 := by
    simp only [wRustCompilation, String.length, List.length_replicate]
    norm_num
  have hdg : (GasProfiler.estimateGasProfile "t" wRustCompilation).deploymentGas = 37384 := by
    simp only [GasProfiler.estimateGasProfile]
    simp only [show wRustCompilation.language = Language.rust from rfl]
    rw [hl]
    have h2 : (2048 : ℚ) / 2 * 16 = ((16384 : ℤ) : ℚ) := by norm_num
    rw [h2]
    have h3 : (21000 : ℚ) + ((16384 : ℤ) : ℚ) = ((37384 : ℤ) : ℚ) := by norm_num
    rw [h3, Int.floor_intCast]
    norm_num
  exact ⟨hdg, by rw [hdg]; norm_num⟩

/-- C1 (amended): for every successful compilation whose bytecode has byte
length `B` (2*B hex characters), the estimation-mode deployment gas equals
`21000 + 16*B` for the WASM variant and `21000 + 200*B` for the bytecode-VM
variant (no constant overhead beyond the 21000 base); in particular B = 1024
WASM yields 37384 and B = 4096 bytecode-VM yields 840200. -/
theorem estimation_deployment_gas_formula (now : String) (c : CompilationResult) (B : ℕ)
    (h : c.bytecode.length = 2 * B) :
    (GasProfiler.estimateGasProfile now c).deploymentGas
      = match c.language with
        | Language.rust => (21000 : ℚ) + 16 * B
        | Language.solidity => (21000 : ℚ) + 200 * B := by
  have hsize : ((c.bytecode.length : ℚ)) / 2 = (B : ℚ) := by
    rw [h]; push_cast; ring
  simp only [GasProfiler.estimateGasProfile]
  cases hl : c.language with
  | rust =>
      simp only [hsize]
      have h2 : (21000 : ℚ) + (B : ℚ) * 16 = ((21000 + 16 * B : ℤ) : ℚ) := by
        push_cast; ring
      rw [h2, Int.floor_intCast]
      push_cast; ring
  | solidity =>
      simp only [hsize]
      have h2 : (21000 : ℚ) + (B : ℚ) * 200 = ((21000 + 200 * B : ℤ) : ℚ) := by
        push_cast; ring
      rw [h2, Int.floor_intCast]
      push_cast; ring

/-- C1 witness: the amended formula evaluated on the two scenario
compilations (1024-byte WASM, 4096-byte bytecode-VM). -/
theorem estimation_deployment_gas_formula_witness :
    (GasProfiler.estimateGasProfile "t" wRustCompilation).deploymentGas = 37384
      ∧ (GasProfiler.estimateGasProfile "t" wSolidityCompilation).deploymentGas = 840200 := by
  constructor
  · have hlen : wRustCompilation.bytecode.length = 2 * 1024 := by
      simp only [wRustCompilation, String.length, List.length_replicate]
    have h := estimation_deployment_gas_formula "t" wRustCompilation 1024 hlen
    simp only [show wRustCompilation.language = Language.rust from rfl] at h
    rw [h]; norm_num
  · have hlen : wSolidityCompilation.bytecode.length = 2 * 4096 := by
      simp only [wSolidityCompilation, String.length, List.length_replicate]
    have h := estimation_deployment_gas_formula "t" wSolidityCompilation 4096 hlen
    simp only [show wSolidityCompilation.language = Language.solidity from rfl] at h
    rw [h]; norm_num

/-- C2 counterexample: `compare` copies the wall-clock reading into the
`timestamp` field, so two invocations on identical profile inputs at
different clock readings return different `ComparisonResult` values. -/
theorem compare_clock_dependent_cex :
    GasComparator.compare "2024-01-01T00:00:00.000Z" wProfileA wProfileB
      ≠ GasComparator.compare "2024-01-02T00:00:00.000Z" wProfileA wProfileB := by
  intro hEq
  have ht := congrArg ComparisonResult.timestamp hEq
  simp only [GasComparator.compare] at ht
  exact absurd ht (by decide)

/-- Forget the `timestamp` field of a `ComparisonResult`. -/
def eraseTimestamp (c : ComparisonResult) : ComparisonResult :=
  { c with timestamp := "" }

/-- C2 (amended): `compare` is deterministic in its two profile inputs on
every field except `timestamp`, which is the wall-clock reading of the
invocation; it performs no I/O and has no side effects. -/
theorem compare_deterministic_up_to_timestamp (t₁ t₂ : String) (a b : GasProfile) :
    eraseTimestamp (GasComparator.compare t₁ a b) = eraseTimestamp (GasComparator.compare t₂ a b)
      ∧ (GasComparator.compare t₁ a b).timestamp = t₁ :=
  ⟨rfl, rfl⟩

/-- C5: `functionSavings` holds exactly the categories present in both
profiles' `functionGas` maps — the candidate's key sequence filtered to keys
the baseline also holds, hence in the candidate's insertion order; keys on
only one side are dropped. -/
theorem functionSavings_keys_intersection (now : String) (a b : GasProfile)
    (h : (mapKeys a.functionGas).Nodup) :
    mapKeys ((GasComparator.compare now a b).savings.functionSavings)
      = (mapKeys a.functionGas).filter (fun k => (mapGet b.functionGas k).isSome) := by
  have hfs : (GasComparator.compare now a b).savings.functionSavings
      = GasComparator.calculateFunctionSavings a.functionGas b.functionGas := rfl
  rw [hfs, calculateFunctionSavings_eq _ _ h, mapKeys_filterMap_intersection]

/-- C5 witness: the key characterization evaluated on two one-category
profiles sharing the category `read`. -/
theorem functionSavings_keys_intersection_witness :
    mapKeys ((GasComparator.compare "t" wProfileA wProfileB).savings.functionSavings)
      = (mapKeys wProfileA.functionGas).filter
          (fun k => (mapGet wProfileB.functionGas k).isSome) :=
  functionSavings_keys_intersection "t" wProfileA wProfileB (by decide)

/-- C6: `totalAvgSavings` is the unweighted arithmetic mean of the
`absolute` and of the `percentage` values over the entries of
`functionSavings`, and is exactly `⟨0, 0⟩` when the category intersection is
empty. -/
theorem totalAvgSavings_mean (now : String) (a b : GasProfile) :
    ((GasComparator.compare now a b).savings.totalAvgSavings
        = if ((GasComparator.compare now a b).savings.functionSavings).length = 0 then ⟨0, 0⟩
          else ⟨((((GasComparator.compare now a b).savings.functionSavings).map
                    (fun p => p.2.absolute)).sum
                  / (((GasComparator.compare now a b).savings.functionSavings).length : ℚ)),
                ((((GasComparator.compare now a b).savings.functionSavings).map
                    (fun p => p.2.percentage)).sum
                  / (((GasComparator.compare now a b).savings.functionSavings).length : ℚ))⟩)
    ∧ ((∀ p ∈ a.functionGas, mapGet b.functionGas p.1 = none) →
        (GasComparator.compare now a b).savings.totalAvgSavings = ⟨0, 0⟩) := by
  constructor
  · have h1 : (GasComparator.compare now a b).savings.totalAvgSavings
        = GasComparator.calculateTotalAvgSavings
            ((GasComparator.compare now a b).savings.functionSavings) := rfl
    rw [h1, calculateTotalAvgSavings_eq]
  · intro hdisj
    have h1 : (GasComparator.compare now a b).savings.totalAvgSavings
        = GasComparator.calculateTotalAvgSavings
            (GasComparator.calculateFunctionSavings a.functionGas b.functionGas) := rfl
    rw [h1, calculateFunctionSavings_nil_of_disjoint _ _ hdisj]
    rfl

/-- C6 witness: an empty category intersection yields `totalAvgSavings = ⟨0, 0⟩`. -/
theorem totalAvgSavings_mean_witness :
    (GasComparator.compare "t" wProfileA wProfileDisjoint).savings.totalAvgSavings = ⟨0, 0⟩ :=
  (totalAvgSavings_mean "t" wProfileA wProfileDisjoint).2 (by decide)

/-- C7: the TCO decomposes as deployment gas plus the sum, over candidate
entries whose category the baseline also holds, of that side's average gas
times its call count (`calls`, else `executions`, else the constant 100);
`functionCount` is the size of the category intersection and `callFrequency`
is 100; `callsUsed` falls back to 100 when both counts are absent. -/
theorem tco_decomposition (now : String) (a b : GasProfile) :
    ((GasComparator.compare now a b).tco.rustTCO - a.deploymentGas
        = (a.functionGas.filterMap (fun p => (mapGet b.functionGas p.1).map
            (fun _ => p.2.avgGas * GasComparator.callsUsed p.2))).sum)
    ∧ ((GasComparator.compare now a b).tco.solidityTCO - b.deploymentGas
        = (a.functionGas.filterMap (fun p => (mapGet b.functionGas p.1).map
            (fun sd => sd.avgGas * GasComparator.callsUsed sd))).sum)
    ∧ (GasComparator.compare now a b).tco.functionCount
        = a.functionGas.countP (fun p => (mapGet b.functionGas p.1).isSome)
    ∧ (GasComparator.compare now a b).tco.callFrequency = 100
    ∧ (∀ d : FunctionGasData, d.calls = none → d.executions = none →
        GasComparator.callsUsed d = 100) := by
  have htot := tcoStep_foldl b.functionGas a.functionGas (0, 0, 0)
  refine ⟨?_, ?_, ?_, rfl, ?_⟩
  · have hr : (GasComparator.compare now a b).tco.rustTCO
        = a.deploymentGas
          + (List.foldl (GasComparator.tcoStep b.functionGas) (0, 0, 0) a.functionGas).1 := rfl
    rw [hr, htot]
    simp
  · have hs : (GasComparator.compare now a b).tco.solidityTCO
        = b.deploymentGas
          + (List.foldl (GasComparator.tcoStep b.functionGas) (0, 0, 0) a.functionGas).2.1 := rfl
    rw [hs, htot]
    simp
  · have hc : (GasComparator.compare now a b).tco.functionCount
        = (List.foldl (GasComparator.tcoStep b.functionGas) (0, 0, 0) a.functionGas).2.2 := rfl
    rw [hc, htot]
    simp
  · intro d hc he
    simp [GasComparator.callsUsed, jsOrQ, hc, he]

/-- C7 witness: the call-count fallback evaluated on an entry with neither
`calls` nor `executions`. -/
theorem tco_decomposition_witness :
    GasComparator.callsUsed { avgGas := 5000 } = 100 :=
  (tco_decomposition "t" wProfileA wProfileB).2.2.2.2 { avgGas := 5000 } rfl rfl

/-- C4: the deployment-savings percentage is
`(baseline - candidate) / baseline * 100` whenever the baseline deployment
gas is positive, and exactly `0` otherwise (in particular when it is `0`). -/
theorem deployment_savings_percentage (now : String) (a b : GasProfile) :
    (GasComparator.compare now a b).savings.deploymentSavings.percentage
      = if 0 < b.deploymentGas
        then (b.deploymentGas - a.deploymentGas) / b.deploymentGas * 100
        else 0 := rfl

/-- C3 counterexample: for the outcome list `[ok 10, error]` (two attempted
cases, one successful), the aggregate entry has `executions = 1` and
`avgGas = 10` — not the claimed `executions = 2` with the failed case
contributing `gasUsed = 0` to the average (which would give `avgGas = 5`). -/
theorem aggregate_executions_cex :
    ((GasProfiler.aggregateFunctionGas "transfer" [Except.ok 10, Except.error "revert"]).map
        (fun e => (e.executions, e.avgGas)) = some (some 1, 10))
    ∧ ((GasProfiler.aggregateFunctionGas "transfer" [Except.ok 10, Except.error "revert"]).map
        (fun e => (e.executions, e.avgGas)) ≠ some (some 2, 5)) := by
  have hagg : (GasProfiler.aggregateFunctionGas "transfer"
      [Except.ok 10, Except.error "revert"]).map (fun e => (e.executions, e.avgGas))
      = some (some 1, 10) := by
    norm_num [GasProfiler.aggregateFunctionGas, Except.toOption, List.filterMap_cons]
  refine ⟨hagg, ?_⟩
  rw [hagg]
  intro hco
  rw [Option.some.injEq, Prod.mk.injEq, Option.some.injEq] at hco
  exact absurd hco.1 (by norm_num)

/-- C3 (amended): the aggregated entry counts only the successful cases:
`executions` is the number of successful cases, `avgGas` the arithmetic mean
over the successful cases only (failed cases are excluded from numerator and
denominator), and no entry is produced when every case failed. -/
theorem aggregate_mean_over_successes (fn : String) (outcomes : List (Except String ℚ)) :
    ((outcomes.filterMap (fun o => o.toOption)) = [] →
        GasProfiler.aggregateFunctionGas fn outcomes = none)
    ∧ (∀ e, GasProfiler.aggregateFunctionGas fn outcomes = some e →
        e.executions = some (((outcomes.filterMap (fun o => o.toOption)).length : ℚ))
        ∧ e.avgGas = (outcomes.filterMap (fun o => o.toOption)).sum
            / ((outcomes.filterMap (fun o => o.toOption)).length : ℚ)
        ∧ (outcomes.filterMap (fun o => o.toOption)).length
            = outcomes.countP (fun o => o.toOption.isSome)) := by
  constructor
  · intro h0
    simp [GasProfiler.aggregateFunctionGas, h0]
  · intro e
    simp only [GasProfiler.aggregateFunctionGas]
    cases hg : outcomes.filterMap (fun o => o.toOption) with
    | nil => intro he; exact Option.noConfusion he
    | cons g gs =>
        intro he
        have hEq := Option.some.inj he
        subst hEq
        refine ⟨rfl, rfl, ?_⟩
        rw [← hg]
        exact length_filterMap_eq_countP _ outcomes

/-- C3 witness: an all-failed list yields no entry; for `[ok 4, ok 6]` the
mean over the two successful cases is `5`. -/
theorem aggregate_mean_over_successes_witness :
    GasProfiler.aggregateFunctionGas "mint" [Except.error "boom"] = none
    ∧ ((GasProfiler.aggregateFunctionGas "approve" [Except.ok 4, Except.ok 6]).map
        (fun e => e.avgGas) = some 5) := by
  constructor
  · exact (aggregate_mean_over_successes "mint" [Except.error "boom"]).1 rfl
  · cases hh : GasProfiler.aggregateFunctionGas "approve" [Except.ok 4, Except.ok 6] with
    | none =>
        have hne : GasProfiler.aggregateFunctionGas "approve" [Except.ok 4, Except.ok 6]
            ≠ none := by
          simp [GasProfiler.aggregateFunctionGas, Except.toOption, List.filterMap_cons]
        exact absurd hh hne
    | some e =>
        have h2 := (aggregate_mean_over_successes "approve" [Except.ok 4, Except.ok 6]).2 e hh
        have havg := h2.2.1
        have hfm : (([Except.ok (4 : ℚ), Except.ok 6] : List (Except String ℚ)).filterMap
            (fun o => Except.toOption o)) = [4, 6] := by
          simp [Except.toOption, List.filterMap_cons]
        rw [hfm] at havg
        rw [Option.map_some', havg]
        norm_num [List.sum_cons, List.sum_nil]

/-- Every entry produced by `aggregateFunctionGas` satisfies
`minGas ≤ avgGas ≤ maxGas` with a positive `executions` count: the three
statistics come from the same non-empty success list. -/
theorem aggregateFunctionGas_bounds (fn : String) (outcomes : List (Except String ℚ))
    (e : FunctionGasData) (h : GasProfiler.aggregateFunctionGas fn outcomes = some e) :
    ∃ n m M, e.executions = some n ∧ 0 < n ∧ e.minGas = some m ∧ e.maxGas = some M
      ∧ m ≤ e.avgGas ∧ e.avgGas ≤ M := by
  revert h
  simp only [GasProfiler.aggregateFunctionGas]
  cases hg : outcomes.filterMap (fun o => o.toOption) with
  | nil => intro h; exact Option.noConfusion h
  | cons g gs =>
      intro h
      have hEq := Option.some.inj h
      subst hEq
      refine ⟨((g :: gs).length : ℚ), gs.foldl min g, gs.foldl max g, rfl, ?_, rfl, rfl, ?_, ?_⟩
      · exact_mod_cast Nat.succ_pos gs.length
      · exact foldl_min_le_avg g gs
      · exact avg_le_foldl_max g gs

/-- Membership in `mapSet m k v` comes from the new binding or from `m`. -/
theorem mem_mapSet {α : Type} :
    ∀ (m : List (String × α)) (k : String) (v : α) (x : String × α),
      x ∈ mapSet m k v → x = (k, v) ∨ x ∈ m := by
  intro m
  induction m with
  | nil =>
      intro k v x hx
      rw [mapSet] at hx
      exact Or.inl (List.mem_singleton.mp hx)
  | cons p rest ih =>
      intro k v x hx
      rw [mapSet] at hx
      by_cases hk : p.1 = k
      · rw [if_pos hk] at hx
        rcases List.mem_cons.mp hx with h | h
        · exact Or.inl h
        · exact Or.inr (List.mem_cons_of_mem p h)
      · rw [if_neg hk] at hx
        rcases List.mem_cons.mp hx with h | h
        · exact Or.inr (h ▸ List.mem_cons_self p rest)
        · rcases ih k v x h with h2 | h2
          · exact Or.inl h2
          · exact Or.inr (List.mem_cons_of_mem p h2)

/-- Fold invariant of the `measureFunctionGas` loop: every value in the
accumulated map is an `aggregateFunctionGas` output. -/
theorem measureFunctionGas_fold_mem :
    ∀ (tcs : List (String × List (Except String ℚ))) (m : GasMap),
      (∀ q ∈ m, ∃ fn outs, GasProfiler.aggregateFunctionGas fn outs = some q.2) →
      ∀ q ∈ tcs.foldl
          (fun m p =>
            match GasProfiler.aggregateFunctionGas p.1 p.2 with
            | some entry => mapSet m p.1 entry
            | none => m)
          m,
        ∃ fn outs, GasProfiler.aggregateFunctionGas fn outs = some q.2 := by
  intro tcs
  induction tcs with
  | nil => intro m hm q hq; exact hm q hq
  | cons p rest ih =>
      intro m hm q hq
      rw [List.foldl_cons] at hq
      cases hagg : GasProfiler.aggregateFunctionGas p.1 p.2 with
      | none =>
          rw [hagg] at hq
          exact ih m hm q hq
      | some entry =>
          rw [hagg] at hq
          refine ih (mapSet m p.1 entry) ?_ q hq
          intro r hr
          rcases mem_mapSet m p.1 entry r hr with h | h
          · exact ⟨p.1, p.2, by rw [h]; exact hagg⟩
          · exact hm r h

/-- C9: every `FunctionGasData` entry of the `functionGas` map produced by
measurement satisfies `minGas ≤ avgGas ≤ maxGas` and carries a positive
`executions` count (the statistics of a non-empty success set). -/
theorem functionGas_min_avg_max (language : Language) (abi : Option Unit)
    (testCases : Option (List (String × List (Except String ℚ)))) (deployOk : Bool)
    (k : String) (e : FunctionGasData)
    (h : (k, e) ∈ GasProfiler.measureFunctionGas language abi testCases deployOk) :
    ∃ n m M, e.executions = some n ∧ 0 < n ∧ e.minGas = some m ∧ e.maxGas = some M
      ∧ m ≤ e.avgGas ∧ e.avgGas ≤ M := by
  have hsrc : ∃ fn outs, GasProfiler.aggregateFunctionGas fn outs = some e := by
    cases abi with
    | none => simp [GasProfiler.measureFunctionGas] at h
    | some u =>
        cases testCases with
        | none => simp [GasProfiler.measureFunctionGas] at h
        | some tcs =>
            cases language with
            | rust => simp [GasProfiler.measureFunctionGas] at h
            | solidity =>
                cases deployOk with
                | false => simp [GasProfiler.measureFunctionGas] at h
                | true =>
                    simp only [GasProfiler.measureFunctionGas, if_true] at h
                    exact measureFunctionGas_fold_mem tcs []
                      (fun q hq => absurd hq (List.not_mem_nil q)) (k, e) h
  obtain ⟨fn, outs, hagg⟩ := hsrc
  exact aggregateFunctionGas_bounds fn outs e hagg

/-- The aggregate entry produced for the outcome list `[ok 5, ok 7]`. -/
def wAggEntry : FunctionGasData :=
  { functionName := "burn", gasUsed := 6, executions := some 2, avgGas := 6,
    minGas := some 5, maxGas := some 7,
    testCases := [{ name := "Test " ++ toString 1, gasUsed := 5, success := true },
                  { name := "Test " ++ toString 2, gasUsed := 7, success := true }] }

/-- C9 witness: the invariant evaluated on the map entry measured from a
solidity contract with the outcome list `[ok 5, ok 7]`. -/
theorem functionGas_min_avg_max_witness :
    ∃ n m M, wAggEntry.executions = some n ∧ 0 < n ∧ wAggEntry.minGas = some m
      ∧ wAggEntry.maxGas = some M ∧ m ≤ wAggEntry.avgGas ∧ wAggEntry.avgGas ≤ M :=
  functionGas_min_avg_max Language.solidity (some ())
    (some [("burn", [Except.ok 5, Except.ok 7])]) true "burn" wAggEntry
    (by
      have hAgg : GasProfiler.aggregateFunctionGas "burn" [Except.ok 5, Except.ok 7]
          = some wAggEntry := by
        norm_num [GasProfiler.aggregateFunctionGas, GasProfiler.mkTestCase, Except.toOption,
          List.enum, List.enumFrom, List.filterMap_cons, wAggEntry, min_def, max_def]
      simp [GasProfiler.measureFunctionGas, hAgg, mapSet])

/-- C8: deserializing a serialized `ComparisonResult` reproduces it exactly
(category mappings as ordered key-value lists, hence also as unordered
sets, and all numeric fields), given that each category map has distinct
keys — which `Map` keys always are. -/
theorem serializeComparison_roundtrip (c : ComparisonResult)
    (h₁ : (mapKeys c.rustProfile.functionGas).Nodup)
    (h₂ : (mapKeys c.solidityProfile.functionGas).Nodup)
    (h₃ : (mapKeys c.savings.functionSavings).Nodup) :
    ResultsStore.deserializeComparison (ResultsStore.serializeComparison c) = c := by
  simp only [ResultsStore.serializeComparison, ResultsStore.deserializeComparison]
  rw [mkMap_of_nodup _ h₁, mkMap_of_nodup _ h₂, mkMap_of_nodup _ h₃]

/-- A concrete comparison artifact with one category per map. -/
def wComparison : ComparisonResult :=
  { contractName := "Counter", rustProfile := wProfileA, solidityProfile := wProfileB,
    savings := { deploymentSavings := ⟨802816, 95⟩,
                 functionSavings := [("read", ⟨"read", 1000, 17, 5000, 6000⟩)],
                 totalAvgSavings := ⟨1000, 17⟩ },
    tco := ⟨537384, 1440200, 902816, 62, 100, 1⟩,
    timestamp := "2024-01-01T00:00:00.000Z" }

/-- C8 witness: the round trip evaluated on a concrete comparison. -/
theorem serializeComparison_roundtrip_witness :
    ResultsStore.deserializeComparison (ResultsStore.serializeComparison wComparison)
      = wComparison :=
  serializeComparison_roundtrip wComparison (by decide) (by decide) (by decide)

/-- C10: in measurement mode, a WASM-variant (`rust`) compilation always
yields a profile with an empty `functionGas` map, whatever test cases are
supplied: `measureFunctionGas` measures only the `solidity` variant and
returns the empty map for every other language. -/
theorem profileContract_rust_empty (now network : String) (blockNumber : ℤ)
    (deploymentGas : ℚ) (c : CompilationResult) (h : c.language = Language.rust)
    (testCases : Option (List (String × List (Except String ℚ)))) (deployOk : Bool) :
    (GasProfiler.profileContract now network blockNumber deploymentGas c testCases
        deployOk).functionGas = [] := by
  have hfg : (GasProfiler.profileContract now network blockNumber deploymentGas c testCases
      deployOk).functionGas
      = GasProfiler.measureFunctionGas c.language c.abi testCases deployOk := rfl
  rw [hfg, h]
  cases c.abi with
  | none => cases testCases <;> rfl
  | some u =>
      cases testCases with
      | none => rfl
      | some tcs => rfl

/-- C10 witness: a rust-variant compilation with an abi and a supplied test
case still produces an empty `functionGas` map. -/
theorem profileContract_rust_empty_witness :
    (GasProfiler.profileContract "t" "arbitrum-sepolia" 123 500000 wRustCompilation
        (some [("read", [Except.ok 5000])]) true).functionGas = [] :=
  profileContract_rust_empty "t" "arbitrum-sepolia" 123 500000 wRustCompilation rfl
    (some [("read", [Except.ok 5000])]) true

end StylusToolkit
